import Mathlib

/-!
Verification of the earnings-play pipeline (src/earnings_scanner.py and
src/utils.py) against its natural-language specification.

The Python code is shallowly embedded: external collaborators (the scorer
`compute_recommendation`, the calendar source `finance_calendars`, the
allow-list file, and `datetime.strptime`) are modelled at their interface
boundary as explicit parameters, while every function owned by the
repository is translated from its source.
-/

set_option autoImplicit false

namespace Earnings

/-- One row produced by the Calendar Resolver: a dict with keys
`symbol` and `time` (src/earnings_scanner.py lines 53-56). -/
structure EarningsEntry where
  symbol : String
  time : String
  deriving DecidableEq, Repr

/-! ### utils.py -/

/-- The set of characters stripped by Python `str.strip()`
(ASCII whitespace, which is what can occur in a symbols file). -/
def isPySpace (c : Char) : Bool :=
  c = ' ' || c = '\t' || c = '\n' || c = '\r' || c = '\x0b' || c = '\x0c'

/-- Python `line.strip()`: remove leading and trailing whitespace. -/
def pyStrip (s : String) : String :=
  String.mk (((s.data.dropWhile isPySpace).reverse.dropWhile isPySpace).reverse)

/-- Split a character list at every newline; the text before the first
newline, between two newlines, and after the last newline each form one
chunk, so the result is never empty. -/
def splitNl : List Char → List (List Char)
  | [] => [[]]
  | c :: cs =>
    let rest := splitNl cs
    if c = '\n' then [] :: rest
    else
      match rest with
      | [] => [[c]]
      | l :: ls => (c :: l) :: ls

/-- Python `f.readlines()` applied to a file whose full text is `s`,
with the line terminators already discarded (they are stripped by the
caller anyway): splitting on newline yields one chunk per line plus a
final empty chunk when the text ends in a newline, which `readlines`
does not report as a line. An empty file has no lines. -/
def pyLines (s : String) : List String :=
  let parts := (splitNl s.data).map String.mk
  if parts.getLast? = some "" then parts.dropLast else parts

/-- src/utils.py lines 4-6: `get_static_stocks` reads the allow-list file
and returns `[line.strip() for line in f.readlines()]`. The file text is
passed explicitly. -/
def get_static_stocks (text : String) : List String :=
  (pyLines text).map (fun line => pyStrip line)

/-- The ruleset dict of `filter_stocks`. The only key the code reads is
`use_static_list`; `none` models the key being absent. -/
structure Rules where
  use_static_list : Option Bool
  deriving DecidableEq, Repr

/-- Python truthiness of `rules.get` of `use_static_list` after the
`if rules is None: rules = {}` default (src/utils.py lines 21-22):
an absent ruleset or an absent key is falsy. -/
def rulesTruthy (rules : Option Rules) : Bool :=
  ((rules.getD ⟨none⟩).use_static_list).getD false

/-- The allow-list file as seen by `open` on the static stocks file:
either missing/unreadable (open raises) or readable with some text. -/
inductive FileSys where
  | missing
  | content (text : String)
  deriving DecidableEq, Repr

/-- Reading the allow-list through `get_static_stocks`: a missing or
unreadable file makes `open` raise, modelled as `Except.error`. -/
def readStaticFile : FileSys → Except Unit (List String)
  | .missing => .error ()
  | .content text => .ok (get_static_stocks text)

/-- src/utils.py lines 8-40: `filter_stocks`. `static_stocks` starts
empty and is loaded exactly when `rules.get` of `use_static_list` is
truthy; an exception from the read propagates. The loop keeps
`ticker_info` unless the static-list rule is enabled and the symbol is
not in the list. The second component counts how many times the
allow-list file was opened. -/
def filter_stocks (tickers : List EarningsEntry) (rules : Option Rules)
    (fs : FileSys) : Except Unit (List EarningsEntry) × Nat :=
  let useStatic := rulesTruthy rules
  let load : Except Unit (List String) × Nat :=
    if useStatic then (readStaticFile fs, 1) else (.ok [], 0)
  match load.1 with
  | .error e => (.error e, load.2)
  | .ok static_stocks =>
      (.ok (tickers.filter
        (fun t => !(useStatic && !(static_stocks.contains t.symbol)))), load.2)

/-! ### earnings_scanner.py : Play Analyzer -/

/-- The dict a scoring call may return, viewed through the four keys
read at src/earnings_scanner.py lines 94-97; `none` models an absent
key (reading it raises `KeyError`). -/
structure SignalsDict where
  avg_volume : Option Bool
  iv30_rv30 : Option Bool
  ts_slope_0_45 : Option Bool
  expected_move : Option String
  deriving DecidableEq, Repr

/-- A value returned by `compute_recommendation`: either not a dict at
all (the `isinstance(result, dict)` test at line 93 fails) or a dict
with the fields above. -/
inductive ScorerResult where
  | nonDict
  | dict (d : SignalsDict)
  deriving DecidableEq, Repr

/-- One behaviour of the external scorer for one symbol: it raises,
or it returns a value. -/
inductive ScorerOutcome where
  | raises (msg : String)
  | returns (v : ScorerResult)
  deriving DecidableEq, Repr

/-- A well-formed signals record in the sense of the data model
(spec section 3, `ScoreSignals`): a dict carrying all four keys. -/
def isWellFormedRecord : ScorerResult → Bool
  | .nonDict => false
  | .dict d =>
      d.avg_volume.isSome && d.iv30_rv30.isSome &&
      d.ts_slope_0_45.isSome && d.expected_move.isSome

/-- A scoring call that either raises or returns a well-formed signals
record (the hypothesis of the partition property). -/
def ScorerOutcome.wellBehaved : ScorerOutcome → Bool
  | .raises _ => true
  | .returns v => isWellFormedRecord v

/-- Python `str(KeyError(k))`, the message recorded when a dict result
lacks key `k`. -/
def keyErrorMessage (k : String) : String := "\x27" ++ k ++ "\x27"

/-- The categorised dict built at src/earnings_scanner.py lines 102-107. -/
structure CategorizedEntry where
  symbol : String
  time : String
  expected_move : String
  recommendation : String
  deriving DecidableEq, Repr

/-- The effect of one loop iteration of `analyze_earnings_plays` on the
four accumulator lists. -/
inductive StepOutcome where
  | recommended (ce : CategorizedEntry)
  | consider (ce : CategorizedEntry)
  | avoid (ce : CategorizedEntry)
  | err (symbol msg : String)
  | skip
  deriving DecidableEq, Repr

def StepOutcome.isBucket : StepOutcome → Bool
  | .recommended _ => true
  | .consider _ => true
  | .avoid _ => true
  | _ => false

def StepOutcome.recOut : StepOutcome → Option CategorizedEntry
  | .recommended ce => some ce
  | _ => none

def StepOutcome.conOut : StepOutcome → Option CategorizedEntry
  | .consider ce => some ce
  | _ => none

def StepOutcome.avdOut : StepOutcome → Option CategorizedEntry
  | .avoid ce => some ce
  | _ => none

def StepOutcome.errOut : StepOutcome → Option (String × String)
  | .err s m => some (s, m)
  | _ => none

/-- src/earnings_scanner.py lines 99-114: given the four extracted
values, compute the `recommendation` string and choose the list the
categorised dict is appended to. -/
def dispatch (symbol time expected_move : String) (a b ts : Bool) :
    StepOutcome :=
  let recommendation :=
    if a && b && ts then "Recommended"
    else if ts && ((a && !b) || (b && !a)) then "Consider"
    else "Avoid"
  let ce : CategorizedEntry := ⟨symbol, time, expected_move, recommendation⟩
  if recommendation == "Recommended" then .recommended ce
  else if recommendation == "Consider" then .consider ce
  else .avoid ce

/-- The body of the `for` loop of `analyze_earnings_plays`
(src/earnings_scanner.py lines 88-118) for one entry: the scorer either
raises (caught, recorded in `errors`), returns a non-dict (the
`isinstance` test fails, nothing happens), or returns a dict, whose four
keys are read in source order — a missing key raises `KeyError`, caught
by the same handler — and the entry is classified. The scorer behaviour
is a function of the symbol, the only argument passed to it. -/
def step (scorer : String → ScorerOutcome) (t : EarningsEntry) :
    StepOutcome :=
  match scorer t.symbol with
  | .raises msg => .err t.symbol msg
  | .returns .nonDict => .skip
  | .returns (.dict d) =>
    match d.avg_volume with
    | none => .err t.symbol (keyErrorMessage "avg_volume")
    | some a =>
      match d.iv30_rv30 with
      | none => .err t.symbol (keyErrorMessage "iv30_rv30")
      | some b =>
        match d.ts_slope_0_45 with
        | none => .err t.symbol (keyErrorMessage "ts_slope_0_45")
        | some ts =>
          match d.expected_move with
          | none => .err t.symbol (keyErrorMessage "expected_move")
          | some em => dispatch t.symbol t.time em a b ts

/-- The four lists returned by `analyze_earnings_plays`
(src/earnings_scanner.py lines 78-81 and 121). -/
structure RunResult where
  recommended : List CategorizedEntry
  consider : List CategorizedEntry
  avoid : List CategorizedEntry
  errors : List (String × String)
  deriving DecidableEq, Repr

/-- src/earnings_scanner.py lines 74-121: iterate over the tickers in
order, applying `step` to each; each iteration appends to at most one
of the four lists, so the lists collect outcomes in input order. -/
def analyze_earnings_plays (scorer : String → ScorerOutcome) :
    List EarningsEntry → RunResult
  | [] => ⟨[], [], [], []⟩
  | t :: ts =>
    let rest := analyze_earnings_plays scorer ts
    match step scorer t with
    | .recommended ce => { rest with recommended := ce :: rest.recommended }
    | .consider ce => { rest with consider := ce :: rest.consider }
    | .avoid ce => { rest with avoid := ce :: rest.avoid }
    | .err s m => { rest with errors := (s, m) :: rest.errors }
    | .skip => rest

/-- The sequence of symbols passed to `compute_recommendation` during
one run of `analyze_earnings_plays`: line 89 calls the scorer exactly
once per loop iteration, unconditionally and before any branching, so
the call sequence is the per-entry symbol list. -/
def analyze_scorer_calls (tickers : List EarningsEntry) : List String :=
  tickers.map (fun t => t.symbol)

def RunResult.total (r : RunResult) : Nat :=
  r.recommended.length + r.consider.length + r.avoid.length +
    r.errors.length

/-! ### earnings_scanner.py : Calendar Resolver -/

/-- A calendar date, as produced by `datetime.date`. -/
structure Date where
  year : Nat
  month : Nat
  day : Nat
  deriving DecidableEq, Repr

/-- One row of the frame returned by the calendar source, keyed by
symbol, with an optional `time` column (src/earnings_scanner.py
lines 50-52). -/
structure CalRow where
  symbol : String
  time : Option String
  deriving DecidableEq, Repr

/-- One behaviour of `finance_calendars.get_earnings_by_date` for one
date: it raises, or it returns a frame of rows. -/
inductive CalendarOutcome where
  | raises (msg : String)
  | frame (rows : List CalRow)
  deriving DecidableEq, Repr

/-- src/earnings_scanner.py lines 50-56: each frame row becomes one
entry; a missing `time` defaults to `time-not-supplied`. -/
def rowsToTickers (rows : List CalRow) : List EarningsEntry :=
  rows.map (fun r => ⟨r.symbol, r.time.getD "time-not-supplied"⟩)

/-- src/earnings_scanner.py lines 29-72, the `try` block: query the
calendar source once; an empty frame, an empty ticker list, or any
exception from the source all yield `[]`. The second component counts
calendar queries. -/
def fetchForDate (calendar : Date → CalendarOutcome) (d : Date) :
    List EarningsEntry × Nat :=
  match calendar d with
  | .raises _ => ([], 1)
  | .frame rows =>
    if rows.isEmpty then ([], 1)
    else
      let tickers := rowsToTickers rows
      if tickers.isEmpty then ([], 1) else (tickers, 1)

/-- src/earnings_scanner.py lines 10-72: `get_earnings_for_date`. The
stdlib parser `datetime.datetime.strptime(date_str, "%Y-%m-%d")` is
modelled at its boundary as `strptime`, returning `none` exactly when
it raises `ValueError`; `today` models `datetime.date.today()`. A parse
failure returns `[]` before the calendar source is ever queried, and no
exception escapes the function. -/
def get_earnings_for_date (today : Date)
    (strptime : String → Option Date)
    (calendar : Date → CalendarOutcome)
    (date_str : Option String) : List EarningsEntry × Nat :=
  match date_str with
  | none => fetchForDate calendar today
  | some s =>
    match strptime s with
    | none => ([], 0)
    | some d => fetchForDate calendar d

/-! ### Helper lemmas -/

theorem step_of_raises (scorer : String → ScorerOutcome) (t : EarningsEntry)
    (msg : String) (h : scorer t.symbol = .raises msg) :
    step scorer t = .err t.symbol msg := by
  unfold step; rw [h]

theorem step_of_nonDict (scorer : String → ScorerOutcome) (t : EarningsEntry)
    (h : scorer t.symbol = .returns .nonDict) :
    step scorer t = .skip := by
  unfold step; rw [h]

theorem dispatch_isBucket (symbol time expected_move : String)
    (a b ts : Bool) :
    (dispatch symbol time expected_move a b ts).isBucket = true := by
  cases a <;> cases b <;> cases ts <;> rfl

theorem analyze_recommended_eq (scorer : String → ScorerOutcome)
    (l : List EarningsEntry) :
    (analyze_earnings_plays scorer l).recommended =
      l.filterMap (fun t => (step scorer t).recOut) := by
  induction l with
  | nil => rfl
  | cons t ts ih =>
    cases h : step scorer t <;>
      simp [analyze_earnings_plays, h, StepOutcome.recOut, ih]

theorem analyze_consider_eq (scorer : String → ScorerOutcome)
    (l : List EarningsEntry) :
    (analyze_earnings_plays scorer l).consider =
      l.filterMap (fun t => (step scorer t).conOut) := by
  induction l with
  | nil => rfl
  | cons t ts ih =>
    cases h : step scorer t <;>
      simp [analyze_earnings_plays, h, StepOutcome.conOut, ih]

theorem analyze_avoid_eq (scorer : String → ScorerOutcome)
    (l : List EarningsEntry) :
    (analyze_earnings_plays scorer l).avoid =
      l.filterMap (fun t => (step scorer t).avdOut) := by
  induction l with
  | nil => rfl
  | cons t ts ih =>
    cases h : step scorer t <;>
      simp [analyze_earnings_plays, h, StepOutcome.avdOut, ih]

theorem analyze_errors_eq (scorer : String → ScorerOutcome)
    (l : List EarningsEntry) :
    (analyze_earnings_plays scorer l).errors =
      l.filterMap (fun t => (step scorer t).errOut) := by
  induction l with
  | nil => rfl
  | cons t ts ih =>
    cases h : step scorer t <;>
      simp [analyze_earnings_plays, h, StepOutcome.errOut, ih]

theorem analyze_total_cons (scorer : String → ScorerOutcome)
    (t : EarningsEntry) (ts : List EarningsEntry)
    (h : step scorer t ≠ .skip) :
    (analyze_earnings_plays scorer (t :: ts)).total =
      (analyze_earnings_plays scorer ts).total + 1 := by
  cases hs : step scorer t with
  | skip => exact absurd hs h
  | recommended ce =>
      simp only [analyze_earnings_plays, hs, RunResult.total,
        List.length_cons]
      omega
  | consider ce =>
      simp only [analyze_earnings_plays, hs, RunResult.total,
        List.length_cons]
      omega
  | avoid ce =>
      simp only [analyze_earnings_plays, hs, RunResult.total,
        List.length_cons]
      omega
  | err s m =>
      simp only [analyze_earnings_plays, hs, RunResult.total,
        List.length_cons]
      omega

theorem step_isBucket_of_dict (scorer : String → ScorerOutcome)
    (t : EarningsEntry) (d : SignalsDict)
    (h : scorer t.symbol = .returns (.dict d))
    (hw : isWellFormedRecord (.dict d) = true) :
    (step scorer t).isBucket = true := by
  simp only [isWellFormedRecord, Bool.and_eq_true,
    Option.isSome_iff_exists] at hw
  obtain ⟨⟨⟨⟨a, ha⟩, b, hb⟩, ts, hts⟩, em, hem⟩ := hw
  unfold step
  rw [h]
  simp only [ha, hb, hts, hem]
  exact dispatch_isBucket t.symbol t.time em a b ts

theorem step_ne_skip_of_wellBehaved (scorer : String → ScorerOutcome)
    (t : EarningsEntry)
    (h : (scorer t.symbol).wellBehaved = true) :
    step scorer t ≠ .skip := by
  cases hs : scorer t.symbol with
  | raises msg =>
      rw [step_of_raises scorer t msg hs]
      simp
  | returns v =>
    cases v with
    | nonDict =>
        rw [hs] at h
        simp [ScorerOutcome.wellBehaved, isWellFormedRecord] at h
    | dict d =>
        rw [hs] at h
        have hb : (step scorer t).isBucket = true :=
          step_isBucket_of_dict scorer t d hs
            (by simpa [ScorerOutcome.wellBehaved] using h)
        intro hskip
        rw [hskip] at hb
        simp [StepOutcome.isBucket] at hb

theorem analyze_total_of_wellBehaved (scorer : String → ScorerOutcome) :
    ∀ tickers : List EarningsEntry,
      (∀ t ∈ tickers, (scorer t.symbol).wellBehaved = true) →
      (analyze_earnings_plays scorer tickers).total = tickers.length := by
  intro tickers
  induction tickers with
  | nil => intro _; rfl
  | cons t ts ih =>
    intro H
    rw [analyze_total_cons scorer t ts
      (step_ne_skip_of_wellBehaved scorer t (H t (List.mem_cons_self t ts)))]
    rw [ih (fun x hx => H x (List.mem_cons_of_mem t hx))]
    rfl

/-! ### C1 -/

/-- C1: the classification of a successfully scored entry is a pure
function of the three booleans: the bucket is Recommended iff all three
are true, Consider iff `ts_slope_0_45` is true and exactly one of
`avg_volume`/`iv30_rv30` is true, and Avoid for every other
combination — for all 8 combinations of the three booleans. -/
theorem classification_rule_c1 (scorer : String → ScorerOutcome)
    (t : EarningsEntry) (a b ts : Bool) (em : String)
    (h : scorer t.symbol = .returns (.dict ⟨some a, some b, some ts, some em⟩)) :
    step scorer t =
      if a && b && ts then
        .recommended ⟨t.symbol, t.time, em, "Recommended"⟩
      else if ts && (a != b) then
        .consider ⟨t.symbol, t.time, em, "Consider"⟩
      else
        .avoid ⟨t.symbol, t.time, em, "Avoid"⟩ := by
  unfold step
  rw [h]
  cases a <;> cases b <;> cases ts <;> rfl

theorem classification_rule_c1_witness :
    ((fun _ : String => ScorerOutcome.returns
        (.dict ⟨some true, some false, some true, some "±5%"⟩)) "AAPL"
      = .returns (.dict ⟨some true, some false, some true, some "±5%"⟩)) ∧
    step (fun _ => .returns
        (.dict ⟨some true, some false, some true, some "±5%"⟩))
      ⟨"AAPL", "before-market"⟩ =
      .consider ⟨"AAPL", "before-market", "±5%", "Consider"⟩ := by
  refine ⟨rfl, ?_⟩
  have := classification_rule_c1
    (fun _ => .returns (.dict ⟨some true, some false, some true, some "±5%"⟩))
    ⟨"AAPL", "before-market"⟩ true false true "±5%" rfl
  simpa using this

/-! ### C3 -/

/-- C3: with `use_static_list` truthy and a readable allow-list file,
`filter_stocks` returns exactly the subsequence of the input whose
symbol occurs verbatim in the loaded allow-list, in input order. -/
theorem filter_static_exact_subsequence (tickers : List EarningsEntry)
    (rules : Option Rules) (text : String)
    (h : rulesTruthy rules = true) :
    filter_stocks tickers rules (.content text) =
      (.ok (tickers.filter
          (fun t => (get_static_stocks text).contains t.symbol)), 1) ∧
    (tickers.filter
        (fun t => (get_static_stocks text).contains t.symbol)).Sublist
      tickers := by
  constructor
  · simp [filter_stocks, readStaticFile, h]
  · exact List.filter_sublist _

theorem filter_static_exact_subsequence_witness :
    rulesTruthy (some ⟨some true⟩) = true ∧
    filter_stocks [⟨"AAPL", "am"⟩, ⟨"XYZ", "pm"⟩] (some ⟨some true⟩)
        (.content "AAPL\nMSFT\n") =
      (.ok [⟨"AAPL", "am"⟩], 1) := by
  refine ⟨rfl, ?_⟩
  have := (filter_static_exact_subsequence
    [⟨"AAPL", "am"⟩, ⟨"XYZ", "pm"⟩] (some ⟨some true⟩) "AAPL\nMSFT\n" rfl).1
  rw [this]; rfl

/-! ### C7 -/

/-- C7: with `use_static_list` false or absent (including an absent
ruleset), `filter_stocks` is the identity on the entry list and never
opens the allow-list file. -/
theorem filter_identity_when_disabled (tickers : List EarningsEntry)
    (rules : Option Rules) (fs : FileSys)
    (h : rulesTruthy rules = false) :
    filter_stocks tickers rules fs = (.ok tickers, 0) := by
  simp [filter_stocks, h]

theorem filter_identity_when_disabled_witness :
    rulesTruthy none = false ∧
    filter_stocks [⟨"AAPL", "am"⟩, ⟨"XYZ", "pm"⟩] none .missing =
      (.ok [⟨"AAPL", "am"⟩, ⟨"XYZ", "pm"⟩], 0) :=
  ⟨rfl, filter_identity_when_disabled
    [⟨"AAPL", "am"⟩, ⟨"XYZ", "pm"⟩] none .missing rfl⟩

/-! ### C9 -/

/-- C9: with `use_static_list` truthy and the allow-list file missing
or unreadable, `filter_stocks` propagates the failure after one read
attempt; it does not return a result list at all, so it cannot behave
as an empty allow-list. -/
theorem filter_missing_file_propagates (tickers : List EarningsEntry)
    (rules : Option Rules) (h : rulesTruthy rules = true) :
    filter_stocks tickers rules .missing = (.error (), 1) := by
  simp [filter_stocks, readStaticFile, h]

theorem filter_missing_file_propagates_witness :
    rulesTruthy (some ⟨some true⟩) = true ∧
    filter_stocks [⟨"AAPL", "am"⟩] (some ⟨some true⟩) .missing =
      (.error (), 1) :=
  ⟨rfl, filter_missing_file_propagates [⟨"AAPL", "am"⟩] (some ⟨some true⟩) rfl⟩

/-! ### C10 -/

/-- C10: `get_static_stocks` returns exactly the stripped lines of the
file (blank lines become empty strings), so a line with surrounding
whitespace still matches its symbol, and a blank line admits an entry
whose symbol is the empty string. -/
theorem static_stocks_stripped_lines :
    (∀ text s, s ∈ get_static_stocks text ↔
        ∃ line ∈ pyLines text, pyStrip line = s) ∧
    get_static_stocks "  AAPL\t \n\nMSFT\n" = ["AAPL", "", "MSFT"] ∧
    filter_stocks [⟨"AAPL", "am"⟩, ⟨"", "pm"⟩, ⟨"XYZ", "am"⟩]
        (some ⟨some true⟩) (.content "  AAPL  \n\n") =
      (.ok [⟨"AAPL", "am"⟩, ⟨"", "pm"⟩], 1) := by
  refine ⟨fun text s => ?_, rfl, rfl⟩
  simp [get_static_stocks]

/-! ### C2 -/

/-- C2: for a batch in which every scoring call either raises or
returns a well-formed signals record, `analyze_earnings_plays`
partitions the batch: the four result lists are exactly the per-entry
step outcomes in input order (so each entry contributes to exactly one
list — a raising entry to `errors`, a scored entry to its bucket), and
the four lengths sum to the input length. -/
theorem analyze_partitions_batch (scorer : String → ScorerOutcome)
    (tickers : List EarningsEntry)
    (H : ∀ t ∈ tickers, (scorer t.symbol).wellBehaved = true) :
    (analyze_earnings_plays scorer tickers).total = tickers.length ∧
    (∀ t ∈ tickers, ∀ msg, scorer t.symbol = .raises msg →
      step scorer t = .err t.symbol msg) ∧
    (∀ t ∈ tickers, (∀ msg, scorer t.symbol ≠ .raises msg) →
      (step scorer t).isBucket = true) ∧
    (analyze_earnings_plays scorer tickers).recommended =
      tickers.filterMap (fun t => (step scorer t).recOut) ∧
    (analyze_earnings_plays scorer tickers).consider =
      tickers.filterMap (fun t => (step scorer t).conOut) ∧
    (analyze_earnings_plays scorer tickers).avoid =
      tickers.filterMap (fun t => (step scorer t).avdOut) ∧
    (analyze_earnings_plays scorer tickers).errors =
      tickers.filterMap (fun t => (step scorer t).errOut) := by
  refine ⟨analyze_total_of_wellBehaved scorer tickers H,
    fun t _ msg h => step_of_raises scorer t msg h,
    fun t ht hnr => ?_,
    analyze_recommended_eq scorer tickers,
    analyze_consider_eq scorer tickers,
    analyze_avoid_eq scorer tickers,
    analyze_errors_eq scorer tickers⟩
  have hw := H t ht
  cases hs : scorer t.symbol with
  | raises msg => exact absurd hs (hnr msg)
  | returns v =>
    cases v with
    | nonDict =>
        rw [hs] at hw
        simp [ScorerOutcome.wellBehaved, isWellFormedRecord] at hw
    | dict d =>
        rw [hs] at hw
        exact step_isBucket_of_dict scorer t d hs
          (by simpa [ScorerOutcome.wellBehaved] using hw)

/-- A concrete scorer: raises on symbol `FAIL`, otherwise returns a
full signals record. -/
def scorerW : String → ScorerOutcome := fun s =>
  if s = "FAIL" then .raises "boom"
  else .returns (.dict ⟨some true, some true, some true, some "±5%"⟩)

theorem analyze_partitions_batch_witness :
    (∀ t ∈ [(⟨"AAPL", "am"⟩ : EarningsEntry), ⟨"FAIL", "pm"⟩],
      (scorerW t.symbol).wellBehaved = true) ∧
    (analyze_earnings_plays scorerW
      [⟨"AAPL", "am"⟩, ⟨"FAIL", "pm"⟩]).total = 2 := by
  refine ⟨by decide, ?_⟩
  have := (analyze_partitions_batch scorerW
    [⟨"AAPL", "am"⟩, ⟨"FAIL", "pm"⟩] (by decide)).1
  simpa using this

/-! ### C4 -/

/-- C4: an entry X whose scoring call raises contributes exactly one
pair (the symbol of X, the failure message) to the error list, at X's
position, and the three buckets are exactly what they would be for the
same batch without X: a single failure neither aborts the batch nor
changes the classification of any other entry. -/
theorem analyze_fault_isolation (scorer : String → ScorerOutcome)
    (l₁ l₂ : List EarningsEntry) (x : EarningsEntry) (msg : String)
    (h : scorer x.symbol = .raises msg) :
    (analyze_earnings_plays scorer (l₁ ++ x :: l₂)).recommended =
      (analyze_earnings_plays scorer (l₁ ++ l₂)).recommended ∧
    (analyze_earnings_plays scorer (l₁ ++ x :: l₂)).consider =
      (analyze_earnings_plays scorer (l₁ ++ l₂)).consider ∧
    (analyze_earnings_plays scorer (l₁ ++ x :: l₂)).avoid =
      (analyze_earnings_plays scorer (l₁ ++ l₂)).avoid ∧
    (analyze_earnings_plays scorer (l₁ ++ x :: l₂)).errors =
      (analyze_earnings_plays scorer l₁).errors ++
        (x.symbol, msg) :: (analyze_earnings_plays scorer l₂).errors := by
  have hx := step_of_raises scorer x msg h
  refine ⟨?_, ?_, ?_, ?_⟩ <;>
    simp [analyze_recommended_eq, analyze_consider_eq, analyze_avoid_eq,
      analyze_errors_eq, List.filterMap_append, List.filterMap_cons, hx,
      StepOutcome.recOut, StepOutcome.conOut, StepOutcome.avdOut,
      StepOutcome.errOut]

theorem analyze_fault_isolation_witness :
    scorerW "FAIL" = .raises "boom" ∧
    (analyze_earnings_plays scorerW
        ([⟨"AAPL", "am"⟩] ++ ⟨"FAIL", "am"⟩ :: [⟨"MSFT", "pm"⟩])).errors =
      (analyze_earnings_plays scorerW [⟨"AAPL", "am"⟩]).errors ++
        ("FAIL", "boom") ::
          (analyze_earnings_plays scorerW [⟨"MSFT", "pm"⟩]).errors :=
  ⟨by decide, (analyze_fault_isolation scorerW [⟨"AAPL", "am"⟩]
    [⟨"MSFT", "pm"⟩] ⟨"FAIL", "am"⟩ "boom" (by decide)).2.2.2⟩

/-! ### C5 -/

/-- C5 counterexample: a batch holding two entries for the same symbol
passes that symbol to the scorer twice — the claim that no symbol is
passed more than once fails on any batch with duplicate symbols. -/
theorem scorer_called_twice_for_duplicate :
    (analyze_scorer_calls [⟨"AAPL", "am"⟩, ⟨"AAPL", "pm"⟩]).count "AAPL"
      = 2 ∧
    ¬ (analyze_scorer_calls
        [⟨"AAPL", "am"⟩, ⟨"AAPL", "pm"⟩]).count "AAPL" ≤ 1 := by
  decide

/-- C5 amended: the scorer is called exactly once per input entry — the
call sequence is the per-entry symbol list — so a symbol borne by k
entries is passed k times, and at most once per symbol holds exactly
for batches whose entries have pairwise-distinct symbols. -/
theorem scorer_calls_once_per_entry (tickers : List EarningsEntry)
    (h : (tickers.map (fun t => t.symbol)).Nodup) :
    analyze_scorer_calls tickers = tickers.map (fun t => t.symbol) ∧
    ∀ sym, (analyze_scorer_calls tickers).count sym ≤ 1 := by
  refine ⟨rfl, fun sym => ?_⟩
  exact List.nodup_iff_count_le_one.mp h sym

theorem scorer_calls_once_per_entry_witness :
    ([(⟨"AAPL", "am"⟩ : EarningsEntry), ⟨"MSFT", "pm"⟩].map
        (fun t => t.symbol)).Nodup ∧
    (analyze_scorer_calls
        [⟨"AAPL", "am"⟩, ⟨"MSFT", "pm"⟩]).count "AAPL" ≤ 1 :=
  ⟨by decide, (scorer_calls_once_per_entry
    [⟨"AAPL", "am"⟩, ⟨"MSFT", "pm"⟩] (by decide)).2 "AAPL"⟩

/-! ### C6 -/

/-- A scorer that always returns an empty dict (no keys at all). -/
def scorerEmptyDict : String → ScorerOutcome :=
  fun _ => .returns (.dict ⟨none, none, none, none⟩)

/-- C6 counterexample: an empty dict is not a well-formed signals
record, yet the entry that receives it is not silently skipped — the
`KeyError` raised on the first key read is caught and the entry is
added to the error list. -/
theorem malformed_dict_not_skipped :
    isWellFormedRecord (.dict ⟨none, none, none, none⟩) = false ∧
    (analyze_earnings_plays scorerEmptyDict [⟨"AAPL", "am"⟩]).errors =
      [("AAPL", keyErrorMessage "avg_volume")] ∧
    (analyze_earnings_plays scorerEmptyDict [⟨"AAPL", "am"⟩]).errors
      ≠ [] := by
  refine ⟨rfl, rfl, by decide⟩

/-- C6 amended: only a scoring call returning a non-dict value is
silently skipped — such an entry contributes to none of the four lists,
and the run result is the same as for the batch without it; a dict
result missing a required key is instead recorded in the error list
through the caught `KeyError`. -/
theorem nondict_result_skipped (scorer : String → ScorerOutcome)
    (l₁ l₂ : List EarningsEntry) (t : EarningsEntry)
    (h : scorer t.symbol = .returns .nonDict) :
    step scorer t = .skip ∧
    (analyze_earnings_plays scorer (l₁ ++ t :: l₂)).recommended =
      (analyze_earnings_plays scorer (l₁ ++ l₂)).recommended ∧
    (analyze_earnings_plays scorer (l₁ ++ t :: l₂)).consider =
      (analyze_earnings_plays scorer (l₁ ++ l₂)).consider ∧
    (analyze_earnings_plays scorer (l₁ ++ t :: l₂)).avoid =
      (analyze_earnings_plays scorer (l₁ ++ l₂)).avoid ∧
    (analyze_earnings_plays scorer (l₁ ++ t :: l₂)).errors =
      (analyze_earnings_plays scorer (l₁ ++ l₂)).errors := by
  have hx := step_of_nonDict scorer t h
  refine ⟨hx, ?_, ?_, ?_, ?_⟩ <;>
    simp [analyze_recommended_eq, analyze_consider_eq, analyze_avoid_eq,
      analyze_errors_eq, List.filterMap_append, List.filterMap_cons, hx,
      StepOutcome.recOut, StepOutcome.conOut, StepOutcome.avdOut,
      StepOutcome.errOut]

/-- A scorer that always returns a non-dict value. -/
def scorerNonDict : String → ScorerOutcome := fun _ => .returns .nonDict

theorem nondict_result_skipped_witness :
    scorerNonDict "XYZ" = .returns .nonDict ∧
    step scorerNonDict ⟨"XYZ", "am"⟩ = .skip :=
  ⟨rfl, (nondict_result_skipped scorerNonDict [] [] ⟨"XYZ", "am"⟩ rfl).1⟩

/-! ### C8 -/

/-- C8: a malformed date string (one the boundary parser rejects with
`ValueError`) makes `get_earnings_for_date` return the empty list
without raising — the model is a total function — and without querying
the calendar source (the query count is 0). -/
theorem malformed_date_empty_no_query (today : Date)
    (strptime : String → Option Date)
    (calendar : Date → CalendarOutcome) (s : String)
    (h : strptime s = none) :
    get_earnings_for_date today strptime calendar (some s) = ([], 0) := by
  simp [get_earnings_for_date, h]

theorem malformed_date_empty_no_query_witness :
    ((fun _ : String => (none : Option Date)) "2025-13-99" = none) ∧
    get_earnings_for_date ⟨2026, 10, 12⟩ (fun _ => none)
        (fun _ => .frame [⟨"AAPL", some "am"⟩]) (some "2025-13-99")
      = ([], 0) :=
  ⟨rfl, malformed_date_empty_no_query ⟨2026, 10, 12⟩ (fun _ => none)
    (fun _ => .frame [⟨"AAPL", some "am"⟩]) "2025-13-99" rfl⟩

end Earnings
